import Mathlib

/-!
Verification of the `group_messaging` models (`group_messaging/models.py`).

The Django models and manager methods are shallowly embedded: the relational
store is an explicit `DB` value (lists of message rows, memo rows and sender
list rows plus a fresh-id counter), each manager or model method becomes a
function from `DB` to `DB` (fallible ones return `Except DbError`).  Strings
are Lean `String`s (Python slicing `[:n]` is `String.take n`, `split(',')` is
`String.splitOn`, `','.join` is `String.intercalate`).
-/

set_option maxRecDepth 8192

namespace GroupMessaging

/-- The comma separator used by `update_senders_info`. -/
def commaStr : String := ","

/-- The empty string (default of the `senders_info` field, models.py 219). -/
def emptyStr : String := ""

/-- models.py line 8. -/
def MAX_TITLE_LENGTH : Nat := 80

/-- models.py line 9. -/
def MAX_SENDERS_INFO_LENGTH : Nat := 64

/-- models.py line 12: dummy parse message function (the identity). -/
def parse_message (v : String) : String := v

/-- A Django auth `Group`.  Personal groups are named `_personal_<user_id>`
(models.py line 14); since that naming scheme is injective on user ids we
model a group as either the personal group of a user id or a plain named
group. -/
inductive GroupId where
  | personal (userId : Nat)
  | named (name : String)
deriving DecidableEq, Repr

/-- models.py lines 16-28: `get_personal_group(user)` resolves the group
named `_personal_<user.id>`. -/
def get_personal_group (userId : Nat) : GroupId := GroupId.personal userId

/-- Status constant, models.py line 83. -/
def MessageMemo.SEEN : Nat := 0

/-- Status constant, models.py line 84. -/
def MessageMemo.ARCHIVED : Nat := 1

/-- models.py lines 73-96: the per-(user, message) overlay record. -/
structure MessageMemo where
  user : Nat
  message : Nat
  status : Nat
deriving DecidableEq, Repr

/-- Message type constant, models.py line 201. -/
def Message.STORED : Nat := 0

/-- Message type constant, models.py line 202. -/
def Message.TEMPORARY : Nat := 1

/-- Message type constant, models.py line 203. -/
def Message.ONE_TIME : Nat := 2

/-- models.py lines 196-248: a message row.  `recipients` is the set of
groups attached through the many-to-many table; `root` and `parent` are
nullable self-references stored as ids.  The timestamp fields carry no
information relevant to the verified claims and are omitted. -/
structure Message where
  id : Nat
  message_type : Nat
  sender : Nat
  senders_info : String
  recipients : List GroupId
  root : Option Nat
  parent : Option Nat
  headline : String
  text : String
  html : String
deriving DecidableEq, Repr

/-- models.py lines 62-70: one sender-list row per recipient group. -/
structure SenderList where
  recipient : GroupId
  senders : List Nat
deriving DecidableEq, Repr

/-- The relational store: message rows, memo rows, sender-list rows and the
next fresh primary key for messages. -/
structure DB where
  messages : List Message
  memos : List MessageMemo
  senderLists : List SenderList
  nextId : Nat
deriving DecidableEq, Repr

def DB.init : DB := { messages := [], memos := [], senderLists := [], nextId := 0 }

/-- `Message.objects.get(id=i)`-style lookup. -/
def findMsg (db : DB) (i : Nat) : Option Message :=
  db.messages.find? (fun m => m.id == i)

/-- Saving a modified message row: the row whose pk is `i` is replaced by
`f` of itself. -/
def updateMsg (db : DB) (i : Nat) (f : Message → Message) : DB :=
  { db with messages := db.messages.map (fun m => if m.id == i then f m else m) }

/-- Idempotent set-insert used for the many-to-many `add`. -/
def insertG (rs : List GroupId) (g : GroupId) : List GroupId :=
  if rs.contains g then rs else rs ++ [g]

/-- models.py lines 258-260: `SenderList.objects.get_or_create(recipient=g)`
followed by `sender_list.senders.add(senderId)`. -/
def recordSend (db : DB) (g : GroupId) (senderId : Nat) : DB :=
  if db.senderLists.any (fun sl => sl.recipient == g) then
    { db with senderLists := db.senderLists.map (fun sl =>
        if sl.recipient == g then
          { sl with senders := if sl.senders.contains senderId then sl.senders
                               else sl.senders ++ [senderId] }
        else sl) }
  else
    { db with senderLists := db.senderLists ++ [{ recipient := g, senders := [senderId] }] }

/-- models.py lines 252-260: `Message.add_recipients` on the message with pk
`mId` whose `sender` field is `senderId`: many-to-many add of `gs` to the
recipient set, then a sender-list update for every added group. -/
def add_recipients (db : DB) (mId : Nat) (senderId : Nat) (gs : List GroupId) : DB :=
  let db1 := updateMsg db mId (fun m => { m with recipients := gs.foldl insertG m.recipients })
  gs.foldl (fun d g => recordSend d g senderId) db1

/-- The errors the embedded operations can surface: a Python `KeyError`
(missing kwargs key), an integrity error on the `unique_together`
constraint, and a missing-row lookup. -/
inductive DbError where
  | keyError
  | constraintViolation
  | validationError
  | notFound
deriving DecidableEq, Repr

/-- models.py lines 155-157: `MessageMemo.objects.create(...)`, checked
against the `unique_together = ('user', 'message')` constraint
(models.py line 96). -/
def memoCreate (db : DB) (userId : Nat) (mId : Nat) (status : Nat) : Except DbError DB :=
  if db.memos.any (fun mm => mm.user == userId && mm.message == mId) then
    Except.error DbError.constraintViolation
  else
    Except.ok { db with memos := db.memos ++ [{ user := userId, message := mId, status := status }] }

/-- The keyword arguments accepted by `MessageManager.create`.  A `none` in
`text` models the `text` key being absent from `kwargs`. -/
structure CreateKwargs where
  root : Option Nat
  parent : Option Message
  headline : Option String
  text : Option String
  sender : Nat
  message_type : Nat
  senders_info : String
deriving Repr

/-- models.py lines 136-144: root determination inside
`MessageManager.create`. -/
def determineRoot (k : CreateKwargs) : Option Nat :=
  match k.root with
  | some r => some r
  | none =>
    match k.parent with
    | some p =>
      match p.root with
      | some pr => some pr
      | none => some p.id
    | none => none

/-- models.py line 146: `kwargs.get('headline', kwargs['text'])`, the
pre-truncation headline source (the supplied headline, defaulting to the
text). -/
def headlineSource (h : Option String) (text : String) : String :=
  match h with
  | some h0 => h0
  | none => text

/-- models.py lines 134-158: `MessageManager.create`.  `kwargs['text']`
raises `KeyError` when the key is absent (it is read unconditionally on
line 146); the headline is the supplied one or the text, truncated to
`MAX_TITLE_LENGTH`; the row is persisted and a SEEN memo is created for the
sender. -/
def create (db : DB) (k : CreateKwargs) : Except DbError (DB × Message) :=
  match k.text with
  | none => Except.error DbError.keyError
  | some text =>
    let headline := (headlineSource k.headline text).take MAX_TITLE_LENGTH
    let message : Message :=
      { id := db.nextId
        message_type := k.message_type
        sender := k.sender
        senders_info := k.senders_info
        recipients := []
        root := determineRoot k
        parent := k.parent.map (fun p => p.id)
        headline := headline
        text := text
        html := parse_message text }
    let db1 : DB := { db with messages := db.messages ++ [message], nextId := db.nextId + 1 }
    match memoCreate db1 k.sender message.id MessageMemo.SEEN with
    | Except.error e => Except.error e
    | Except.ok db2 => Except.ok (db2, message)

/-- The kwargs passed by `create_thread` (models.py lines 163-168):
`message_type=STORED`, `senders_info=sender.username`, the text.  `uname`
maps a user id to their username (external user data). -/
def threadKwargs (uname : Nat → String) (senderId : Nat) (text : String) : CreateKwargs :=
  { root := none, parent := none, headline := none, text := some text,
    sender := senderId, message_type := Message.STORED, senders_info := uname senderId }

/-- The kwargs passed by `create_response` (models.py lines 173-178):
`parent=parent`, `message_type=STORED`, the text (`senders_info` keeps the
model default, the empty string). -/
def responseKwargs (senderId : Nat) (text : String) (parent : Message) : CreateKwargs :=
  { root := none, parent := some parent, headline := none, text := some text,
    sender := senderId, message_type := Message.STORED, senders_info := emptyStr }

/-- models.py lines 161-170: `MessageManager.create_thread`. -/
def create_thread (uname : Nat → String) (db : DB) (senderId : Nat)
    (recipients : List GroupId) (text : String) : Except DbError (DB × Message) :=
  match create db (threadKwargs uname senderId text) with
  | Except.error e => Except.error e
  | Except.ok (db1, message) =>
    Except.ok (add_recipients db1 message.id message.sender recipients, message)

/-- Python `s.split(',')` on the character list of `s`, written by
structural recursion (the library `String.splitOn` is defined by
well-founded recursion and does not evaluate inside the kernel).  As in
Python, the empty string yields `[""]` and separators at either end yield
empty fields. -/
def splitCommaChars : List Char → List String
  | [] => [emptyStr]
  | c :: cs =>
    if c = ',' then emptyStr :: splitCommaChars cs
    else
      match splitCommaChars cs with
      | [] => [String.mk [c]]
      | s1 :: rest => String.mk (c :: s1.data) :: rest

/-- Python `s.split(',')` (models.py line 266). -/
def splitComma (s : String) : List String := splitCommaChars s.data

/-- models.py lines 262-273: `Message.update_senders_info` on the message
with pk `rootId`: split the stored comma-separated names, remove this
message's own sender's username if present, prepend it, re-join and hard
truncate to 64 characters, then save. -/
def update_senders_info (uname : Nat → String) (db : DB) (rootId : Nat) : DB :=
  updateMsg db rootId (fun root =>
    let senders_names := splitComma root.senders_info
    let nm := uname root.sender
    let senders_names1 := if senders_names.contains nm then senders_names.erase nm
                          else senders_names
    { root with senders_info := (String.intercalate commaStr (nm :: senders_names1)).take 64 })

/-- models.py lines 275-278: `Message.unarchive` on the message with pk
`rootId`: every memo of that message with status ARCHIVED is updated to
SEEN. -/
def unarchive (db : DB) (rootId : Nat) : DB :=
  { db with memos := db.memos.map (fun mm =>
      if mm.message == rootId && mm.status == MessageMemo.ARCHIVED then
        { mm with status := MessageMemo.SEEN }
      else mm) }

/-- models.py lines 172-193: `MessageManager.create_response`.  The parent
message object held by the caller is looked up by pk; the reply is created
with `parent=parent`; the reply recipients are the parent's current
recipients plus the personal group of the parent's sender
(`get_personal_group(parent.sender)`, line 182); that same group is also
added to the parent (line 186); then the root's senders info is recomputed
and the root is unarchived (the `last_active_at` timestamp bump carries no
modelled information).  A reply always has a root, so the inner `none`
branch is unreachable. -/
def create_response (uname : Nat → String) (db : DB) (senderId : Nat)
    (text : String) (parentId : Nat) : Except DbError (DB × Message) :=
  match findMsg db parentId with
  | none => Except.error DbError.notFound
  | some parent =>
    match create db (responseKwargs senderId text parent) with
    | Except.error e => Except.error e
    | Except.ok (db1, message) =>
      match message.root with
      | none => Except.error DbError.notFound
      | some rootId =>
        Except.ok
          (unarchive
            (update_senders_info uname
              (add_recipients
                (add_recipients db1 message.id message.sender
                  (insertG parent.recipients (get_personal_group parent.sender)))
                parent.id parent.sender [get_personal_group parent.sender])
              rootId) rootId,
           message)

/-- models.py lines 102-132: `MessageManager.get_threads`.
`recipientGroups` is `recipient.groups.all()`; the `recipients__in` join
holds when the message has at least one recipient group among them. -/
def get_threads (db : DB) (recipientId : Nat) (recipientGroups : List GroupId)
    (senderId : Option Nat) (deleted : Bool) : List Message :=
  let user_thread_filter : Message → Bool := fun m =>
    m.root == none && m.message_type == Message.STORED &&
      m.recipients.any (fun g => recipientGroups.contains g)
  let filt : Message → Bool := fun m =>
    user_thread_filter m &&
      (match senderId with | some s => m.sender == s | none => true)
  if deleted then
    db.messages.filter (fun m => filt m &&
      db.memos.any (fun mm =>
        mm.status == MessageMemo.ARCHIVED && mm.user == recipientId && mm.message == m.id))
  else
    let part1 := db.messages.filter (fun m => filt m &&
      db.memos.any (fun mm =>
        mm.status == MessageMemo.SEEN && mm.user == recipientId && mm.message == m.id))
    let part2 := db.messages.filter (fun m => filt m &&
      !(db.memos.any (fun mm => mm.user == recipientId && mm.message == m.id)))
    part1 ++ part2.filter (fun m => !(part1.any (fun x => x.id == m.id)))

/-- The `(id, parent, root)` projection of a message row: the part of a row
the thread-graph invariant depends on. -/
structure Skel where
  id : Nat
  parent : Option Nat
  root : Option Nat
deriving DecidableEq, Repr

/-- The thread-graph skeleton of the store. -/
def skel (db : DB) : List Skel :=
  db.messages.map (fun m => { id := m.id, parent := m.parent, root := m.root })

/-- Follow `parent` links upward (with explicit fuel) until a message with
no parent is reached; returns its id. -/
def topA (l : List Skel) : Nat → Skel → Option Nat
  | 0, _ => none
  | fuel + 1, s =>
    match s.parent with
    | none => some s.id
    | some p =>
      match l.find? (fun x => x.id == p) with
      | none => none
      | some sp => topA l fuel sp

/-- The root invariant of the spec: a message with a null root has no
parent, and a message with root `r` has the message `r` as its topmost
ancestor along `parent` links, where `r` is itself a stored root (null
root, no parent). -/
def RootInvProp (l : List Skel) : Prop :=
  ∀ s ∈ l,
    (s.root = none → s.parent = none) ∧
    (∀ r, s.root = some r →
      topA l l.length s = some r ∧
      ∃ sr ∈ l, sr.id = r ∧ sr.root = none ∧ sr.parent = none)

/-- The full inductive invariant carried along reachable stores: ids are
below the fresh counter and strictly increasing, parents resolve, and the
root invariant holds. -/
def SInv (n : Nat) (l : List Skel) : Prop :=
  (∀ s ∈ l, s.id < n) ∧
  l.Pairwise (fun a b => a.id < b.id) ∧
  (∀ s ∈ l, ∀ p, s.parent = some p → ∃ sp ∈ l, sp.id = p) ∧
  RootInvProp l

/-- Stores reachable from the empty store by the two public creation
operations of the manager (`create_thread`, `create_response`). -/
inductive Reach (uname : Nat → String) : DB → Prop where
  | init : Reach uname DB.init
  | thread {db db2 : DB} {m : Message} {s : Nat} {gs : List GroupId} {t : String} :
      Reach uname db → create_thread uname db s gs t = Except.ok (db2, m) →
      Reach uname db2
  | response {db db2 : DB} {m : Message} {s : Nat} {t : String} {p : Nat} :
      Reach uname db → create_response uname db s t p = Except.ok (db2, m) →
      Reach uname db2

/-- The current recipient set of the message with pk `i`. -/
def recipientsOf (db : DB) (i : Nat) : List GroupId :=
  match findMsg db i with
  | some m => m.recipients
  | none => []

/-- The current `senders_info` of the message with pk `i`. -/
def sendersInfoOf (db : DB) (i : Nat) : String :=
  match findMsg db i with
  | some m => m.senders_info
  | none => emptyStr

/-- The base filter of `get_threads` as the spec states it: a stored thread
root among the store's rows whose recipients intersect the recipient's
groups, optionally restricted to one sender. -/
def baseFilterProp (db : DB) (recipientGroups : List GroupId) (senderId : Option Nat)
    (m : Message) : Prop :=
  m ∈ db.messages ∧ m.root = none ∧ m.message_type = Message.STORED ∧
    (∃ g, g ∈ m.recipients ∧ g ∈ recipientGroups) ∧
    (∀ s0, senderId = some s0 → m.sender = s0)

/-- At most one memo per (user, message) pair (`unique_together`,
models.py line 96). -/
abbrev memoUnique (db : DB) : Prop :=
  ∀ a ∈ db.memos, ∀ b ∈ db.memos, a.user = b.user → a.message = b.message → a = b

/-- Every memo refers to an already allocated message pk. -/
abbrev memoWf (db : DB) : Prop :=
  ∀ mm ∈ db.memos, mm.message < db.nextId

/-- Every message row's pk is below the fresh counter. -/
abbrev msgWf (db : DB) : Prop :=
  ∀ m ∈ db.messages, m.id < db.nextId

/- Concrete scenario used by the witnesses: user 1 (username A) starts a
thread addressed to the plain group G, then user 2 (username B) responds. -/

def defaultMsg : Message :=
  { id := 0, message_type := 0, sender := 0, senders_info := emptyStr, recipients := [],
    root := none, parent := none, headline := emptyStr, text := emptyStr, html := emptyStr }

def nameA : String := "A"

def nameB : String := "B"

def nameU : String := "U"

def nameG : String := "G"

def nameBA : String := "B,A"

def wText : String := "hello there"

def wReplyText : String := "a reply to the thread"

def unameW : Nat → String := fun i => if i == 1 then nameA else if i == 2 then nameB else nameU

def wRes1 : Except DbError (DB × Message) :=
  create_thread unameW DB.init 1 [GroupId.named nameG] wText

def wSt1 : DB :=
  match wRes1 with
  | Except.ok (d, _) => d
  | Except.error _ => DB.init

def wMsg1 : Message :=
  match wRes1 with
  | Except.ok (_, m) => m
  | Except.error _ => defaultMsg

def wRes2 : Except DbError (DB × Message) :=
  create_response unameW wSt1 2 wReplyText 0

def wSt2 : DB :=
  match wRes2 with
  | Except.ok (d, _) => d
  | Except.error _ => DB.init

def wMsg2 : Message :=
  match wRes2 with
  | Except.ok (_, m) => m
  | Except.error _ => defaultMsg

/-- A store with an archived memo for user 1 and a seen memo for user 2 on
message 0, and an archived memo for user 4 on another message 7. -/
def wMemoDb : DB :=
  { messages := [],
    memos := [{ user := 1, message := 0, status := MessageMemo.ARCHIVED },
              { user := 2, message := 0, status := MessageMemo.SEEN },
              { user := 4, message := 7, status := MessageMemo.ARCHIVED }],
    senderLists := [], nextId := 8 }

def text100 : String := "0123456789012345678901234567890123456789012345678901234567890123456789012345678901234567890123456789"

def text80 : String := "01234567890123456789012345678901234567890123456789012345678901234567890123456789"

def wKw100 : CreateKwargs :=
  { root := none, parent := none, headline := none, text := some text100,
    sender := 3, message_type := Message.STORED, senders_info := emptyStr }

def wKwEmpty : CreateKwargs :=
  { root := none, parent := none, headline := none, text := some emptyStr,
    sender := 1, message_type := Message.STORED, senders_info := emptyStr }

def wKwMissing : CreateKwargs :=
  { root := none, parent := none, headline := none, text := none,
    sender := 1, message_type := Message.STORED, senders_info := emptyStr }

def wRes100 : Except DbError (DB × Message) := create DB.init wKw100

def wDb100 : DB :=
  match wRes100 with
  | Except.ok (d, _) => d
  | Except.error _ => DB.init

def wMsg100 : Message :=
  match wRes100 with
  | Except.ok (_, m) => m
  | Except.error _ => defaultMsg

/-- The root message row as stored right after the thread creation (the
parent object user 2 replies to). -/
def wParent : Message :=
  match findMsg wSt1 0 with
  | some m => m
  | none => defaultMsg

/-- The root message row of the witness scenario as stored after the
response. -/
def wRoot : Message :=
  match findMsg wSt2 0 with
  | some m => m
  | none => defaultMsg

/-! ### Helper lemmas -/

theorem create_ok_dest {db db2 : DB} {k : CreateKwargs} {m : Message}
    (h : create db k = Except.ok (db2, m)) :
    ∃ t, k.text = some t ∧
      m.id = db.nextId ∧ m.message_type = k.message_type ∧ m.sender = k.sender ∧
      m.senders_info = k.senders_info ∧ m.recipients = [] ∧
      m.root = determineRoot k ∧ m.parent = k.parent.map (fun p => p.id) ∧
      m.headline = (headlineSource k.headline t).take MAX_TITLE_LENGTH ∧
      m.text = t ∧ m.html = parse_message t ∧
      db2.messages = db.messages ++ [m] ∧
      db2.memos = db.memos ++
        [{ user := k.sender, message := m.id, status := MessageMemo.SEEN }] ∧
      db2.senderLists = db.senderLists ∧
      db2.nextId = db.nextId + 1 := by
  cases htext : k.text with
  | none => rw [create, htext] at h; exact absurd h (by simp)
  | some t =>
    rw [create, htext] at h
    simp only [memoCreate] at h
    split at h
    · exact absurd h (by simp)
    · rename_i db2x heq
      split at heq
      · exact absurd heq (by simp)
      · rw [Except.ok.injEq] at heq
        subst heq
        rw [Except.ok.injEq, Prod.mk.injEq] at h
        obtain ⟨hdb, hm⟩ := h
        subst hdb; subst hm
        refine ⟨t, rfl, rfl, rfl, rfl, rfl, rfl, rfl, rfl, ?_, ?_, ?_, ?_, ?_, ?_, ?_⟩
        · unfold Message.headline
          rfl
        all_goals rfl

theorem memos_no_fresh (db : DB) (u : Nat) (hwf : memoWf db) :
    (db.memos.any (fun mm => mm.user == u && mm.message == db.nextId)) = false := by
  rw [Bool.eq_false_iff]
  intro hany
  rw [List.any_eq_true] at hany
  obtain ⟨mm, hmem, hp⟩ := hany
  rw [Bool.and_eq_true, beq_iff_eq, beq_iff_eq] at hp
  exact absurd hp.2 (Nat.ne_of_lt (hwf mm hmem))

theorem create_ok_of_text {db : DB} {k : CreateKwargs} {t : String}
    (ht : k.text = some t) (hwf : memoWf db) :
    (create db k).isOk = true := by
  simp [create, ht, memoCreate, memos_no_fresh db k.sender hwf, Except.isOk, Except.toBool]

/-! ### C8 -/

/-- Claim C8: for every `create` call whose kwargs carry text `t`, the stored
headline is the first `MAX_TITLE_LENGTH = 80` characters of `t` (or of an
explicitly supplied headline), a plain character-count cut, and the message
is persisted in the store. -/
theorem C8_headline_is_truncated_text (db db2 : DB) (k : CreateKwargs) (m : Message)
    (t : String) (ht : k.text = some t) (hc : create db k = Except.ok (db2, m)) :
    m.headline = (match k.headline with | some h0 => h0 | none => t).take 80 ∧
      m ∈ db2.messages := by
  obtain ⟨t2, ht2, _, _, _, _, _, _, _, hhead, _, _, hmsgs, _⟩ := create_ok_dest hc
  rw [ht] at ht2
  rw [Option.some.injEq] at ht2
  subst ht2
  refine ⟨hhead, ?_⟩
  rw [hmsgs, List.mem_append]
  exact Or.inr (List.mem_singleton.2 rfl)

/-- Witness for C8: a concrete 100-character body yields exactly its first
80 characters as the stored headline. -/
theorem C8_witness :
    wKw100.text = some text100 ∧
      (wMsg100.headline = (match wKw100.headline with
                           | some h0 => h0
                           | none => text100).take 80 ∧ wMsg100 ∈ wDb100.messages) ∧
      wMsg100.headline = text80 := by
  refine ⟨rfl, C8_headline_is_truncated_text DB.init wDb100 wKw100 wMsg100 text100 rfl rfl, ?_⟩
  decide

/-! ### C7 -/

/-- Counterexample to claim C7: `create` with an empty (but present) text
succeeds — no `ValidationError` is raised — and `create` with the text key
absent fails with a `KeyError`, not a `ValidationError`. -/
theorem C7_counterexample :
    (create DB.init wKwEmpty).isOk = true ∧
      create DB.init wKwMissing = Except.error DbError.keyError :=
  ⟨rfl, rfl⟩

/-- Claim C7 as amended: `create` fails with a `KeyError` when the text key
is absent from the kwargs; a present text — even the empty string — is
accepted and the message is created; truncation is never reported as an
error (the only failure with a present text would be the memo uniqueness
constraint, which cannot fire on a fresh message id). -/
theorem C7_text_errors (db : DB) (k : CreateKwargs) (hwf : memoWf db) :
    (k.text = none → create db k = Except.error DbError.keyError) ∧
    (∀ t, k.text = some t → (create db k).isOk = true) := by
  constructor
  · intro h
    rw [create, h]
  · intro t ht
    exact create_ok_of_text ht hwf

/-- Witness for C7: on the empty store (trivially well formed) the empty
text is accepted. -/
theorem C7_witness : memoWf DB.init ∧ (create DB.init wKwEmpty).isOk = true :=
  ⟨by decide, (C7_text_errors DB.init wKwEmpty (by decide)).2 emptyStr rfl⟩

/-! ### C6 -/

/-- Claim C6: every successful `create` leaves a SEEN memo for the sender
on the new message in the same resulting store, and on a well-formed store
the only possible failure of `create` is the missing-text `KeyError` — the
self-memo step itself cannot fail, so no store with a message lacking its
sender's self-memo is ever produced. -/
theorem C6_self_seen (db : DB) (k : CreateKwargs) (hwf : memoWf db) :
    (∀ db2 m, create db k = Except.ok (db2, m) →
       ({ user := k.sender, message := m.id, status := MessageMemo.SEEN } : MessageMemo)
           ∈ db2.memos ∧
         m ∈ db2.messages) ∧
    (∀ e, create db k = Except.error e → e = DbError.keyError) := by
  constructor
  · intro db2 m hc
    obtain ⟨t, ht, hid, _, _, _, _, _, _, _, _, _, hmsgs, hmemos, _, _⟩ := create_ok_dest hc
    constructor
    · rw [hmemos, List.mem_append]
      exact Or.inr (List.mem_singleton.2 rfl)
    · rw [hmsgs, List.mem_append]
      exact Or.inr (List.mem_singleton.2 rfl)
  · intro e he
    cases htext : k.text with
    | none =>
      rw [create, htext] at he
      injection he with h2
      exact h2.symm
    | some t =>
      have hok := create_ok_of_text htext hwf
      rw [he] at hok
      simp [Except.isOk, Except.toBool] at hok

/-- Witness for C6: concrete creation on the empty store leaves the
sender's SEEN memo. -/
theorem C6_witness :
    memoWf DB.init ∧
      (({ user := 3, message := wMsg100.id, status := MessageMemo.SEEN } : MessageMemo)
          ∈ wDb100.memos ∧
        wMsg100 ∈ wDb100.messages) :=
  ⟨by decide, (C6_self_seen DB.init wKw100 (by decide)).1 wDb100 wMsg100 rfl⟩

/-! ### C5 -/

/-- Claim C5: `unarchive` turns every ARCHIVED memo of the root message
into a SEEN memo (none stays ARCHIVED), leaves SEEN memos as they are,
creates no memo for users who had none, and is the identity on the store
when no memo of the root is archived. -/
theorem C5_unarchive_transitions (db : DB) (rootId u : Nat) :
    (({ user := u, message := rootId, status := MessageMemo.ARCHIVED } : MessageMemo)
         ∈ db.memos →
       ({ user := u, message := rootId, status := MessageMemo.SEEN } : MessageMemo)
         ∈ (unarchive db rootId).memos) ∧
    (({ user := u, message := rootId, status := MessageMemo.SEEN } : MessageMemo)
         ∈ db.memos →
       ({ user := u, message := rootId, status := MessageMemo.SEEN } : MessageMemo)
         ∈ (unarchive db rootId).memos) ∧
    (({ user := u, message := rootId, status := MessageMemo.ARCHIVED } : MessageMemo)
         ∉ (unarchive db rootId).memos) ∧
    ((∀ mm ∈ db.memos, ¬(mm.user = u ∧ mm.message = rootId)) →
       ∀ mm ∈ (unarchive db rootId).memos, ¬(mm.user = u ∧ mm.message = rootId)) ∧
    ((∀ mm ∈ db.memos, ¬(mm.message = rootId ∧ mm.status = MessageMemo.ARCHIVED)) →
       unarchive db rootId = db) := by
  refine ⟨?_, ?_, ?_, ?_, ?_⟩
  · intro h
    exact List.mem_map.2 ⟨_, h, by simp⟩
  · intro h
    refine List.mem_map.2 ⟨_, h, ?_⟩
    rw [if_neg]
    intro hc
    rw [Bool.and_eq_true, beq_iff_eq, beq_iff_eq] at hc
    exact absurd hc.2 (by simp [MessageMemo.SEEN, MessageMemo.ARCHIVED])
  · intro h
    obtain ⟨mm0, hmem, heq⟩ := List.mem_map.1 h
    by_cases hc : (mm0.message == rootId && mm0.status == MessageMemo.ARCHIVED) = true
    · rw [if_pos hc] at heq
      have hstat := congrArg MessageMemo.status heq
      simp [MessageMemo.SEEN, MessageMemo.ARCHIVED] at hstat
    · rw [if_neg hc] at heq
      subst heq
      simp [MessageMemo.ARCHIVED] at hc
  · intro h mm hmm hcon
    obtain ⟨mm0, hmem0, heq⟩ := List.mem_map.1 hmm
    subst heq
    by_cases hc : (mm0.message == rootId && mm0.status == MessageMemo.ARCHIVED) = true
    · rw [if_pos hc] at hcon
      exact h mm0 hmem0 hcon
    · rw [if_neg hc] at hcon
      exact h mm0 hmem0 hcon
  · intro h
    have hmap : db.memos.map (fun mm =>
        if mm.message == rootId && mm.status == MessageMemo.ARCHIVED then
          { mm with status := MessageMemo.SEEN }
        else mm) = db.memos := by
      have h2 : ∀ mm ∈ db.memos,
          (if mm.message == rootId && mm.status == MessageMemo.ARCHIVED then
            { mm with status := MessageMemo.SEEN }
          else mm) = mm := by
        intro mm hmm
        rw [if_neg]
        intro hc
        rw [Bool.and_eq_true, beq_iff_eq, beq_iff_eq] at hc
        exact h mm hmm hc
      rw [List.map_congr_left h2]
      exact List.map_id _
    rw [unarchive, hmap]

/-- Witness for C5: in the concrete memo store, user 1's ARCHIVED memo on
message 0 becomes SEEN. -/
theorem C5_witness :
    ({ user := 1, message := 0, status := MessageMemo.ARCHIVED } : MessageMemo)
        ∈ wMemoDb.memos ∧
      ({ user := 1, message := 0, status := MessageMemo.SEEN } : MessageMemo)
        ∈ (unarchive wMemoDb 0).memos :=
  ⟨by decide, (C5_unarchive_transitions wMemoDb 0 1).1 (by decide)⟩

/-! ### C10 -/

/-- Claim C10: `unarchive` on a root changes nothing but the status of that
root's own archived memos: the message rows, sender lists and id counter
are untouched, the memo list keeps its length, every memo of another
message (for example a reply's memo, archived or not) is unchanged at its
position, and even a changed memo keeps its user and message fields. -/
theorem C10_unarchive_frame (db : DB) (rootId : Nat) :
    (unarchive db rootId).messages = db.messages ∧
    (unarchive db rootId).senderLists = db.senderLists ∧
    (unarchive db rootId).nextId = db.nextId ∧
    (unarchive db rootId).memos.length = db.memos.length ∧
    (∀ i : Nat, ∀ mm : MessageMemo, db.memos[i]? = some mm → mm.message ≠ rootId →
       (unarchive db rootId).memos[i]? = some mm) ∧
    (∀ i : Nat, ∀ mm mm2 : MessageMemo, db.memos[i]? = some mm →
       (unarchive db rootId).memos[i]? = some mm2 →
       mm2.user = mm.user ∧ mm2.message = mm.message) := by
  refine ⟨rfl, rfl, rfl, List.length_map _ _, ?_, ?_⟩
  · intro i mm h hne
    unfold unarchive
    simp only [List.getElem?_map]
    rw [h, Option.map_some']
    rw [if_neg]
    intro hc
    rw [Bool.and_eq_true, beq_iff_eq] at hc
    exact hne hc.1
  · intro i mm mm2 h h2
    unfold unarchive at h2
    simp only [List.getElem?_map] at h2
    rw [h, Option.map_some'] at h2
    injection h2 with h3
    subst h3
    split
    · exact ⟨rfl, rfl⟩
    · exact ⟨rfl, rfl⟩

/-- Witness for C10: the archived memo of the unrelated message 7 is
untouched by unarchiving message 0. -/
theorem C10_witness :
    wMemoDb.memos[2]? = some { user := 4, message := 7, status := MessageMemo.ARCHIVED } ∧
      (unarchive wMemoDb 0).memos[2]? =
        some { user := 4, message := 7, status := MessageMemo.ARCHIVED } :=
  ⟨rfl, (C10_unarchive_frame wMemoDb 0).2.2.2.2.1 2 _ rfl (by decide)⟩

/-! ### C1 -/

theorem sender_match_iff (s : Option Nat) (m : Message) :
    ((match s with | some s0 => m.sender == s0 | none => true) = true) ↔
      (∀ s0, s = some s0 → m.sender = s0) := by
  cases s with
  | none => simp
  | some s0 => simp [beq_iff_eq]

theorem mem_get_threads_deleted (db : DB) (r : Nat) (gs : List GroupId) (s : Option Nat)
    (m : Message) :
    m ∈ get_threads db r gs s true ↔
      baseFilterProp db gs s m ∧
        ∃ mm ∈ db.memos, mm.user = r ∧ mm.message = m.id ∧
          mm.status = MessageMemo.ARCHIVED := by
  simp only [get_threads, if_true, List.mem_filter, Bool.and_eq_true, List.any_eq_true,
    beq_iff_eq, List.contains, List.elem_iff, baseFilterProp, sender_match_iff]
  tauto

theorem mem_get_threads_inbox (db : DB) (r : Nat) (gs : List GroupId) (s : Option Nat)
    (m : Message) :
    m ∈ get_threads db r gs s false ↔
      baseFilterProp db gs s m ∧
        ((∃ mm ∈ db.memos, mm.user = r ∧ mm.message = m.id ∧
            mm.status = MessageMemo.SEEN) ∨
          (∀ mm ∈ db.memos, ¬(mm.user = r ∧ mm.message = m.id))) := by
  simp only [get_threads, if_false, Bool.false_eq_true, List.mem_append, List.mem_filter,
    Bool.and_eq_true, Bool.not_eq_true', List.any_eq_false, List.any_eq_true,
    beq_iff_eq, List.contains, List.elem_iff, baseFilterProp, sender_match_iff]
  constructor
  · rintro (⟨hmem, hfilt, hseen⟩ | ⟨⟨hmem, hfilt, hnone⟩, hdedup⟩)
    · obtain ⟨⟨⟨hroot, htype⟩, hrec⟩, hsend⟩ := hfilt
      obtain ⟨x, hx, ⟨hstat, hu⟩, hmsg⟩ := hseen
      exact ⟨⟨hmem, hroot, htype, hrec, hsend⟩, Or.inl ⟨x, hx, hu, hmsg, hstat⟩⟩
    · obtain ⟨⟨⟨hroot, htype⟩, hrec⟩, hsend⟩ := hfilt
      exact ⟨⟨hmem, hroot, htype, hrec, hsend⟩, Or.inr hnone⟩
  · rintro ⟨⟨hmem, hroot, htype, hrec, hsend⟩, hseen | hnone⟩
    · obtain ⟨mm, hmm, hu, hmsg, hstat⟩ := hseen
      exact Or.inl ⟨hmem, ⟨⟨⟨hroot, htype⟩, hrec⟩, hsend⟩, mm, hmm, ⟨hstat, hu⟩, hmsg⟩
    · refine Or.inr ⟨⟨hmem, ⟨⟨⟨hroot, htype⟩, hrec⟩, hsend⟩, hnone⟩, ?_⟩
      intro x hx hxid
      obtain ⟨-, -, mm, hmm, ⟨-, hu⟩, hmsg⟩ := hx
      exact hnone mm hmm ⟨hu, by rw [hmsg, hxid]⟩

/-- Claim C1: membership in `get_threads` is exactly as the spec states it:
with `deleted = false` the deduplicated union of base-filtered thread roots
carrying a SEEN memo for the recipient and of those carrying no memo for
the recipient at all; with `deleted = true` exactly the base-filtered
thread roots carrying an ARCHIVED memo for the recipient. -/
theorem C1_get_threads_spec (db : DB) (r : Nat) (gs : List GroupId) (s : Option Nat)
    (m : Message) :
    (m ∈ get_threads db r gs s false ↔
      baseFilterProp db gs s m ∧
        ((∃ mm ∈ db.memos, mm.user = r ∧ mm.message = m.id ∧
            mm.status = MessageMemo.SEEN) ∨
          (∀ mm ∈ db.memos, ¬(mm.user = r ∧ mm.message = m.id)))) ∧
    (m ∈ get_threads db r gs s true ↔
      baseFilterProp db gs s m ∧
        ∃ mm ∈ db.memos, mm.user = r ∧ mm.message = m.id ∧
          mm.status = MessageMemo.ARCHIVED) :=
  ⟨mem_get_threads_inbox db r gs s m, mem_get_threads_deleted db r gs s m⟩

/-- Witness for C1: in the concrete scenario the root thread is in user 1's
inbox view, and the characterization instantiates accordingly. -/
theorem C1_witness :
    (wRoot ∈ get_threads wSt2 1 [GroupId.named nameG, GroupId.personal 1] none false ↔
      baseFilterProp wSt2 [GroupId.named nameG, GroupId.personal 1] none wRoot ∧
        ((∃ mm ∈ wSt2.memos, mm.user = 1 ∧ mm.message = wRoot.id ∧
            mm.status = MessageMemo.SEEN) ∨
          (∀ mm ∈ wSt2.memos, ¬(mm.user = 1 ∧ mm.message = wRoot.id)))) ∧
    (wRoot ∈ get_threads wSt2 1 [GroupId.named nameG, GroupId.personal 1] none true ↔
      baseFilterProp wSt2 [GroupId.named nameG, GroupId.personal 1] none wRoot ∧
        ∃ mm ∈ wSt2.memos, mm.user = 1 ∧ mm.message = wRoot.id ∧
          mm.status = MessageMemo.ARCHIVED) :=
  C1_get_threads_spec wSt2 1 [GroupId.named nameG, GroupId.personal 1] none wRoot

/-! ### C9 -/

/-- Claim C9: when each (user, message) pair carries at most one memo, the
inbox view and the deleted view of `get_threads` (same recipient, same
sender filter) are disjoint. -/
theorem C9_views_disjoint (db : DB) (r : Nat) (gs : List GroupId) (s : Option Nat)
    (hu : memoUnique db) (m : Message) :
    ¬(m ∈ get_threads db r gs s false ∧ m ∈ get_threads db r gs s true) := by
  rintro ⟨hf, ht⟩
  rw [mem_get_threads_inbox] at hf
  rw [mem_get_threads_deleted] at ht
  obtain ⟨-, mmA, hmemA, huA, hmA, hsA⟩ := ht
  rcases hf.2 with hseen | hnone
  · obtain ⟨mmS, hmemS, huS, hmS, hsS⟩ := hseen
    have heq := hu mmS hmemS mmA hmemA (huS.trans huA.symm) (hmS.trans hmA.symm)
    rw [heq] at hsS
    rw [hsA] at hsS
    simp [MessageMemo.SEEN, MessageMemo.ARCHIVED] at hsS
  · exact hnone mmA hmemA ⟨huA, hmA⟩

/-- Witness for C9: memo uniqueness holds in the concrete scenario, and the
root thread indeed cannot be in both views. -/
theorem C9_witness :
    memoUnique wSt2 ∧
      ¬(wRoot ∈ get_threads wSt2 1 [GroupId.named nameG, GroupId.personal 1] none false ∧
        wRoot ∈ get_threads wSt2 1 [GroupId.named nameG, GroupId.personal 1] none true) :=
  ⟨by decide,
    C9_views_disjoint wSt2 1 [GroupId.named nameG, GroupId.personal 1] none (by decide) wRoot⟩

/-! ### Frame lemmas for the response pipeline -/

theorem find?_map_pred {α : Type} (g : α → α) (p : α → Bool) (l : List α)
    (hp : ∀ a, p (g a) = p a) :
    (l.map g).find? p = (l.find? p).map g := by
  induction l with
  | nil => rfl
  | cons a as ih =>
    by_cases h : p a = true
    · rw [List.map_cons, List.find?_cons_of_pos _ (by rw [hp]; exact h),
        List.find?_cons_of_pos _ h, Option.map_some']
    · rw [List.map_cons, List.find?_cons_of_neg _ (by rw [hp]; exact h),
        List.find?_cons_of_neg _ h, ih]

theorem findMsg_updateMsg (db : DB) (i : Nat) (f : Message → Message) (j : Nat)
    (hf : ∀ m, (f m).id = m.id) :
    findMsg (updateMsg db i f) j =
      (findMsg db j).map (fun m => if m.id == i then f m else m) := by
  unfold findMsg updateMsg
  exact find?_map_pred _ _ _ (fun a => by by_cases h : (a.id == i) = true <;> simp [h, hf])

theorem recordSend_messages (db : DB) (g : GroupId) (sid : Nat) :
    (recordSend db g sid).messages = db.messages := by
  unfold recordSend
  split <;> rfl

theorem recordSend_memos (db : DB) (g : GroupId) (sid : Nat) :
    (recordSend db g sid).memos = db.memos := by
  unfold recordSend
  split <;> rfl

theorem recordSend_nextId (db : DB) (g : GroupId) (sid : Nat) :
    (recordSend db g sid).nextId = db.nextId := by
  unfold recordSend
  split <;> rfl

theorem foldl_recordSend_messages (gs : List GroupId) (sid : Nat) (db : DB) :
    (gs.foldl (fun d g => recordSend d g sid) db).messages = db.messages := by
  induction gs generalizing db with
  | nil => rfl
  | cons g gs ih => rw [List.foldl_cons, ih, recordSend_messages]

theorem foldl_recordSend_memos (gs : List GroupId) (sid : Nat) (db : DB) :
    (gs.foldl (fun d g => recordSend d g sid) db).memos = db.memos := by
  induction gs generalizing db with
  | nil => rfl
  | cons g gs ih => rw [List.foldl_cons, ih, recordSend_memos]

theorem foldl_recordSend_nextId (gs : List GroupId) (sid : Nat) (db : DB) :
    (gs.foldl (fun d g => recordSend d g sid) db).nextId = db.nextId := by
  induction gs generalizing db with
  | nil => rfl
  | cons g gs ih => rw [List.foldl_cons, ih, recordSend_nextId]

theorem add_recipients_messages (db : DB) (mId sid : Nat) (gs : List GroupId) :
    (add_recipients db mId sid gs).messages =
      db.messages.map (fun m =>
        if m.id == mId then { m with recipients := gs.foldl insertG m.recipients } else m) := by
  unfold add_recipients
  rw [foldl_recordSend_messages]
  rfl

theorem findMsg_add_recipients (db : DB) (mId sid : Nat) (gs : List GroupId) (j : Nat) :
    findMsg (add_recipients db mId sid gs) j =
      (findMsg db j).map (fun m =>
        if m.id == mId then { m with recipients := gs.foldl insertG m.recipients } else m) := by
  unfold add_recipients
  rw [show (gs.foldl (fun d g => recordSend d g sid)
      (updateMsg db mId (fun m => { m with recipients := gs.foldl insertG m.recipients }))) =
      _ from rfl]
  unfold findMsg
  rw [foldl_recordSend_messages]
  exact find?_map_pred _ _ _ (fun a => by by_cases h : (a.id == mId) = true <;> simp [h])

theorem recipientsOf_updateMsg (db : DB) (i : Nat) (f : Message → Message) (j : Nat)
    (hid : ∀ m, (f m).id = m.id) (hrec : ∀ m, (f m).recipients = m.recipients) :
    recipientsOf (updateMsg db i f) j = recipientsOf db j := by
  unfold recipientsOf
  rw [findMsg_updateMsg db i f j hid]
  cases findMsg db j with
  | none => rfl
  | some q =>
    rw [Option.map_some']
    by_cases h : (q.id == i) = true <;> simp [h, hrec]

theorem recipientsOf_update_senders_info (uname : Nat → String) (db : DB) (r j : Nat) :
    recipientsOf (update_senders_info uname db r) j = recipientsOf db j := by
  unfold update_senders_info
  exact recipientsOf_updateMsg db r _ j (fun m => rfl) (fun m => rfl)

theorem recipientsOf_unarchive (db : DB) (r j : Nat) :
    recipientsOf (unarchive db r) j = recipientsOf db j := rfl

theorem mem_insertG (rs : List GroupId) (g x : GroupId) :
    x ∈ insertG rs g ↔ x ∈ rs ∨ x = g := by
  unfold insertG
  by_cases h : rs.contains g = true
  · rw [if_pos h]
    constructor
    · exact fun hx => Or.inl hx
    · rintro (hx | rfl)
      · exact hx
      · exact List.elem_iff.1 h
  · rw [if_neg h]
    simp

theorem mem_foldl_insertG (gs acc : List GroupId) (x : GroupId) :
    x ∈ gs.foldl insertG acc ↔ x ∈ acc ∨ x ∈ gs := by
  induction gs generalizing acc with
  | nil => simp
  | cons g gs ih =>
    rw [List.foldl_cons, ih, mem_insertG]
    simp [or_assoc]

theorem create_response_ok_dest {uname : Nat → String} {db db5 : DB} {sid : Nat}
    {t : String} {pid : Nat} {m parent : Message}
    (hfind : findMsg db pid = some parent)
    (h : create_response uname db sid t pid = Except.ok (db5, m)) :
    ∃ db1 rootId,
      create db (responseKwargs sid t parent) = Except.ok (db1, m) ∧
      m.root = some rootId ∧
      db5 = unarchive (update_senders_info uname
              (add_recipients
                (add_recipients db1 m.id m.sender
                  (insertG parent.recipients (get_personal_group parent.sender)))
                parent.id parent.sender [get_personal_group parent.sender])
              rootId) rootId := by
  rw [create_response] at h
  simp only [hfind] at h
  cases hcr : create db (responseKwargs sid t parent) with
  | error e =>
    simp only [hcr] at h
    exact absurd h (by simp)
  | ok pr =>
    obtain ⟨db1, m0⟩ := pr
    simp only [hcr] at h
    cases hroot : m0.root with
    | none =>
      simp only [hroot] at h
      exact absurd h (by simp)
    | some rootId =>
      simp only [hroot] at h
      rw [Except.ok.injEq, Prod.mk.injEq] at h
      obtain ⟨hdb, hm⟩ := h
      subst hdb
      subst hm
      exact ⟨db1, rootId, rfl, hroot, rfl⟩

/-! ### C2 -/

/-- Counterexample to claim C2: in the concrete scenario user 2 responds to
user 1's thread, yet the responder's personal group (`personal 2`) is
neither among the new message's recipients nor among the parent's — the
group actually added in both places is `personal 1`, the personal group of
the parent's sender. -/
theorem C2_counterexample :
    wMsg2.sender = 2 ∧
      GroupId.personal 2 ∉ recipientsOf wSt2 wMsg2.id ∧
      GroupId.personal 2 ∉ recipientsOf wSt2 0 ∧
      GroupId.personal 1 ∈ recipientsOf wSt2 wMsg2.id ∧
      GroupId.personal 1 ∈ recipientsOf wSt2 0 := by
  decide

/-- Claim C2 as amended: after `create_response`, the new message's
recipient set is the parent's prior recipient set united with the personal
group of the parent's sender (not the responder's), and that same personal
group of the parent's sender is also added to the parent's own recipient
set. -/
theorem C2_response_recipients (uname : Nat → String) (db db5 : DB) (m parent : Message)
    (sid : Nat) (t : String) (pid : Nat)
    (hwf : msgWf db)
    (hfind : findMsg db pid = some parent)
    (hr : create_response uname db sid t pid = Except.ok (db5, m)) :
    (∀ g, g ∈ recipientsOf db5 m.id ↔
       (g ∈ parent.recipients ∨ g = get_personal_group parent.sender)) ∧
    (∀ g, g ∈ recipientsOf db5 pid ↔
       (g ∈ parent.recipients ∨ g = get_personal_group parent.sender)) := by
  obtain ⟨db1, rootId, hcr, hroot, hdb5⟩ := create_response_ok_dest hfind hr
  obtain ⟨t2, ht2, hid, _, _, _, hrec0, _, _, _, _, _, hmsgs, _, _, hnext⟩ :=
    create_ok_dest hcr
  have hpid : parent.id = pid := by
    have h1 := List.find?_some
      (show db.messages.find? (fun q => q.id == pid) = some parent from hfind)
    simpa [beq_iff_eq] using h1
  have hparent_mem : parent ∈ db.messages := List.mem_of_find?_eq_some hfind
  have hne : pid ≠ m.id := by
    rw [hid]
    exact Nat.ne_of_lt (hpid ▸ hwf parent hparent_mem)
  have hf_m : findMsg db1 m.id = some m := by
    unfold findMsg
    rw [hmsgs, List.find?_append]
    have hnonefind : db.messages.find? (fun q => q.id == m.id) = none := by
      rw [List.find?_eq_none]
      intro q hq
      simp only [beq_iff_eq]
      exact Nat.ne_of_lt (by rw [hid]; exact hwf q hq)
    rw [hnonefind, Option.none_or, List.find?_cons_of_pos _ (by simp)]
  have hf_p : findMsg db1 pid = some parent := by
    unfold findMsg
    rw [hmsgs, List.find?_append,
      show db.messages.find? (fun q => q.id == pid) = some parent from hfind]
    rfl
  have hA_m : findMsg (add_recipients db1 m.id m.sender (insertG parent.recipients (get_personal_group parent.sender))) m.id = some { m with recipients := List.foldl insertG m.recipients (insertG parent.recipients (get_personal_group parent.sender)) } := by
    rw [findMsg_add_recipients, hf_m, Option.map_some', if_pos (by simp)]
  have hA_p : findMsg (add_recipients db1 m.id m.sender (insertG parent.recipients (get_personal_group parent.sender))) pid = some parent := by
    rw [findMsg_add_recipients, hf_p, Option.map_some', if_neg ?hcond]
    case hcond =>
      simp only [beq_iff_eq, hpid]
      exact hne
  have hB_m : findMsg (add_recipients (add_recipients db1 m.id m.sender (insertG parent.recipients (get_personal_group parent.sender))) parent.id parent.sender [get_personal_group parent.sender]) m.id = some { m with recipients := List.foldl insertG m.recipients (insertG parent.recipients (get_personal_group parent.sender)) } := by
    rw [findMsg_add_recipients, hA_m, Option.map_some', if_neg ?hcond2]
    case hcond2 =>
      simp only [beq_iff_eq, hpid]
      exact Ne.symm hne
  have hB_p : findMsg (add_recipients (add_recipients db1 m.id m.sender (insertG parent.recipients (get_personal_group parent.sender))) parent.id parent.sender [get_personal_group parent.sender]) pid = some { parent with recipients := List.foldl insertG parent.recipients [get_personal_group parent.sender] } := by
    rw [findMsg_add_recipients, hA_p, Option.map_some', if_pos (by simp)]
  have hro_m : recipientsOf db5 m.id = List.foldl insertG m.recipients (insertG parent.recipients (get_personal_group parent.sender)) := by
    rw [hdb5, recipientsOf_unarchive, recipientsOf_update_senders_info]
    unfold recipientsOf
    rw [hB_m]
  have hro_p : recipientsOf db5 pid = List.foldl insertG parent.recipients [get_personal_group parent.sender] := by
    rw [hdb5, recipientsOf_unarchive, recipientsOf_update_senders_info]
    unfold recipientsOf
    rw [hB_p]
  constructor
  · intro g
    rw [hro_m, hrec0, mem_foldl_insertG, mem_insertG]
    simp
  · intro g
    rw [hro_p, mem_foldl_insertG]
    simp

/-- Witness for C2 (amended): instantiating the theorem on the concrete
scenario, the reply's recipient set is the parent's recipients plus the
parent author's personal group. -/
theorem C2_witness :
    GroupId.personal 1 ∈ recipientsOf wSt2 wMsg2.id ↔
      (GroupId.personal 1 ∈ wParent.recipients ∨
        GroupId.personal 1 = get_personal_group wParent.sender) :=
  (C2_response_recipients unameW wSt1 wSt2 wMsg2 wParent 2 wReplyText 0
      (by decide) rfl rfl).1 (GroupId.personal 1)

/-! ### C3 -/

/-- Claim C3 evaluated at its failing input (code bug): after user B
responds to user A's thread whose root has `senders_info = "A"`, the root's
`senders_info` is still exactly `"A"` — `update_senders_info` prepends the
root's own sender's name (A again), never the responder's, so the claimed
`"B,A"` never appears. -/
theorem C3_senders_info_bug :
    sendersInfoOf wSt2 0 = nameA ∧ sendersInfoOf wSt2 0 ≠ nameBA := by
  constructor
  · rfl
  · decide

/-! ### C4: thread-graph invariant machinery -/

theorem topA_append (l : List Skel) (x : Skel)
    (hpv : ∀ s ∈ l, ∀ p, s.parent = some p → ∃ sp ∈ l, sp.id = p) :
    ∀ fuel, ∀ s ∈ l, topA (l ++ [x]) fuel s = topA l fuel s := by
  intro fuel
  induction fuel with
  | zero => intro s hs; rfl
  | succ fuel ih =>
    intro s hs
    cases hsp : s.parent with
    | none => simp only [topA, hsp]
    | some p =>
      obtain ⟨sp, hspmem, hspid⟩ := hpv s hs p hsp
      cases hf : l.find? (fun y => y.id == p) with
      | none =>
        rw [List.find?_eq_none] at hf
        exact absurd (show (sp.id == p) = true by simp [hspid]) (hf sp hspmem)
      | some y =>
        have hymem : y ∈ l := List.mem_of_find?_eq_some hf
        have hf2 : (l ++ [x]).find? (fun y => y.id == p) = some y := by
          rw [List.find?_append, hf]
          rfl
        simp only [topA, hsp, hf, hf2]
        exact ih y hymem

theorem topA_mono (l : List Skel) :
    ∀ f1 f2 s r, f1 ≤ f2 → topA l f1 s = some r → topA l f2 s = some r := by
  intro f1
  induction f1 with
  | zero =>
    intro f2 s r hle h
    simp [topA] at h
  | succ f1 ih =>
    intro f2 s r hle h
    cases f2 with
    | zero => exact absurd hle (by omega)
    | succ f2 =>
      cases hsp : s.parent with
      | none =>
        simp only [topA, hsp] at h ⊢
        exact h
      | some p =>
        simp only [topA, hsp] at h ⊢
        cases hf : l.find? (fun y => y.id == p) with
        | none =>
          rw [hf] at h
          exact Option.noConfusion h
        | some y =>
          rw [hf] at h
          exact ih f2 y r (by omega) h

theorem find?_self_of_pairwise (l : List Skel)
    (hpw : l.Pairwise (fun a b => a.id < b.id)) :
    ∀ s ∈ l, l.find? (fun y => y.id == s.id) = some s := by
  induction l with
  | nil => intro s hs; cases hs
  | cons a as ih =>
    intro s hs
    rcases List.mem_cons.1 hs with rfl | hs2
    · exact List.find?_cons_of_pos _ (by simp)
    · have ha := (List.pairwise_cons.1 hpw).1 s hs2
      rw [List.find?_cons_of_neg _ (by simp only [beq_iff_eq]; exact Nat.ne_of_lt ha)]
      exact ih (List.pairwise_cons.1 hpw).2 s hs2

theorem SInv_append_case (n : Nat) (l : List Skel) (x : Skel)
    (hinv : SInv n l) (hxid : x.id = n)
    (hcase : (x.parent = none ∧ x.root = none) ∨
       (∃ ps ∈ l, x.parent = some ps.id ∧
          ((ps.root = none ∧ x.root = some ps.id) ∨
           (∃ pr, ps.root = some pr ∧ x.root = some pr)))) :
    SInv (n + 1) (l ++ [x]) := by
  obtain ⟨hlt, hpw, hpv, hri⟩ := hinv
  have hlen : (l ++ [x]).length = l.length + 1 := by simp
  refine ⟨?_, ?_, ?_, ?_⟩
  · intro s hs
    rcases List.mem_append.1 hs with h | h
    · exact Nat.lt_succ_of_lt (hlt s h)
    · rw [List.mem_singleton.1 h, hxid]
      exact Nat.lt_succ_self n
  · rw [List.pairwise_append]
    refine ⟨hpw, List.pairwise_singleton _ _, ?_⟩
    intro a ha b hb
    rw [List.mem_singleton.1 hb, hxid]
    exact hlt a ha
  · intro s hs p hp
    rcases List.mem_append.1 hs with h | h
    · obtain ⟨sp, hsp, hspid⟩ := hpv s h p hp
      exact ⟨sp, List.mem_append.2 (Or.inl hsp), hspid⟩
    · have hsx := List.mem_singleton.1 h
      subst hsx
      rcases hcase with ⟨hpn, -⟩ | ⟨ps, hpsmem, hxp, -⟩
      · rw [hpn] at hp; cases hp
      · rw [hxp] at hp
        rw [Option.some.injEq] at hp
        exact ⟨ps, List.mem_append.2 (Or.inl hpsmem), hp⟩
  · intro s hs
    rcases List.mem_append.1 hs with hmem | hx1
    · obtain ⟨hrn, hrs⟩ := hri s hmem
      refine ⟨hrn, ?_⟩
      intro r hr
      obtain ⟨htop, sr, hsrmem, hsrid, hsrroot, hsrpar⟩ := hrs r hr
      constructor
      · rw [hlen]
        have h1 : topA (l ++ [x]) l.length s = some r := by
          rw [topA_append l x hpv l.length s hmem]
          exact htop
        exact topA_mono (l ++ [x]) l.length (l.length + 1) s r (Nat.le_succ _) h1
      · exact ⟨sr, List.mem_append.2 (Or.inl hsrmem), hsrid, hsrroot, hsrpar⟩
    · have hsx := List.mem_singleton.1 hx1
      subst hsx
      rcases hcase with ⟨hpn, hrn⟩ | ⟨ps, hpsmem, hxp, hcase2⟩
      · refine ⟨fun _ => hpn, ?_⟩
        intro r hr
        rw [hrn] at hr
        cases hr
      · have hfps : (l ++ [s]).find? (fun y => y.id == ps.id) = some ps := by
          rw [List.find?_append, find?_self_of_pairwise l hpw ps hpsmem]
          rfl
        refine ⟨?_, ?_⟩
        · intro hrnone
          rcases hcase2 with ⟨-, hxroot⟩ | ⟨pr, -, hxroot⟩ <;>
            · rw [hxroot] at hrnone; cases hrnone
        · intro r hr
          rcases hcase2 with ⟨hpsroot, hxroot⟩ | ⟨pr, hpsroot, hxroot⟩
          · have hpspar : ps.parent = none := (hri ps hpsmem).1 hpsroot
            rw [hxroot] at hr
            rw [Option.some.injEq] at hr
            constructor
            · rw [hlen]
              obtain ⟨q, hq⟩ : ∃ q, l.length = q + 1 :=
                ⟨l.length - 1, by
                  have hl0 : 0 < l.length := List.length_pos.2 (List.ne_nil_of_mem hpsmem)
                  omega⟩
              rw [hq]
              simp only [topA, hxp, hfps, hpspar]
              rw [hr]
            · exact ⟨ps, List.mem_append.2 (Or.inl hpsmem), hr, hpsroot, hpspar⟩
          · obtain ⟨htopps, sr, hsrmem, hsrid, hsrroot, hsrpar⟩ :=
              (hri ps hpsmem).2 pr hpsroot
            rw [hxroot] at hr
            rw [Option.some.injEq] at hr
            constructor
            · rw [hlen]
              simp only [topA, hxp, hfps]
              rw [topA_append l s hpv l.length ps hpsmem, htopps, hr]
            · exact ⟨sr, List.mem_append.2 (Or.inl hsrmem), by rw [hsrid, hr], hsrroot,
                hsrpar⟩

theorem skel_updateMsg (db : DB) (i : Nat) (f : Message → Message)
    (hid : ∀ m, (f m).id = m.id) (hpar : ∀ m, (f m).parent = m.parent)
    (hroot : ∀ m, (f m).root = m.root) :
    skel (updateMsg db i f) = skel db := by
  unfold skel updateMsg
  simp only [List.map_map]
  apply List.map_congr_left
  intro a ha
  by_cases h : (a.id == i) = true <;> simp [Function.comp, h, hid, hpar, hroot]

theorem skel_add_recipients (db : DB) (i sid : Nat) (gs : List GroupId) :
    skel (add_recipients db i sid gs) = skel db := by
  unfold skel
  rw [add_recipients_messages]
  simp only [List.map_map]
  apply List.map_congr_left
  intro a ha
  by_cases h : (a.id == i) = true <;> simp [Function.comp, h]

theorem skel_update_senders_info (uname : Nat → String) (db : DB) (r : Nat) :
    skel (update_senders_info uname db r) = skel db := by
  unfold update_senders_info
  exact skel_updateMsg db r _ (fun m => rfl) (fun m => rfl) (fun m => rfl)

theorem skel_unarchive (db : DB) (r : Nat) : skel (unarchive db r) = skel db := rfl

theorem add_recipients_nextId (db : DB) (i sid : Nat) (gs : List GroupId) :
    (add_recipients db i sid gs).nextId = db.nextId := by
  unfold add_recipients
  rw [foldl_recordSend_nextId]
  rfl

theorem update_senders_info_nextId (uname : Nat → String) (db : DB) (r : Nat) :
    (update_senders_info uname db r).nextId = db.nextId := rfl

theorem unarchive_nextId (db : DB) (r : Nat) : (unarchive db r).nextId = db.nextId := rfl

theorem skel_create {db db1 : DB} {k : CreateKwargs} {m : Message}
    (h : create db k = Except.ok (db1, m)) :
    skel db1 = skel db ++ [{ id := m.id, parent := m.parent, root := m.root }] ∧
      db1.nextId = db.nextId + 1 ∧ m.id = db.nextId ∧
      m.parent = k.parent.map (fun p => p.id) ∧ m.root = determineRoot k := by
  obtain ⟨t, _, hid, _, _, _, _, hroot, hpar, _, _, _, hmsgs, _, _, hnext⟩ := create_ok_dest h
  refine ⟨?_, hnext, hid, hpar, hroot⟩
  unfold skel
  rw [hmsgs, List.map_append]
  rfl

theorem SInv_create_thread {uname : Nat → String} {db db2 : DB} {m : Message} {sid : Nat}
    {gs : List GroupId} {t : String}
    (hinv : SInv db.nextId (skel db))
    (h : create_thread uname db sid gs t = Except.ok (db2, m)) :
    SInv db2.nextId (skel db2) := by
  rw [create_thread] at h
  cases hcr : create db (threadKwargs uname sid t) with
  | error e =>
    simp only [hcr] at h
    exact absurd h (by simp)
  | ok pr =>
    obtain ⟨db1, m0⟩ := pr
    simp only [hcr] at h
    rw [Except.ok.injEq, Prod.mk.injEq] at h
    obtain ⟨hdb, hm⟩ := h
    subst hdb
    subst hm
    obtain ⟨hskel, hnext, hid, hpar, hroot⟩ := skel_create hcr
    rw [add_recipients_nextId, skel_add_recipients, hskel, hnext]
    refine SInv_append_case db.nextId (skel db) _ hinv hid ?_
    refine Or.inl ⟨?_, ?_⟩
    · show m0.parent = none
      rw [hpar]
      rfl
    · show m0.root = none
      rw [hroot]
      rfl

theorem SInv_create_response {uname : Nat → String} {db db2 : DB} {m : Message}
    {sid : Nat} {t : String} {pid : Nat}
    (hinv : SInv db.nextId (skel db))
    (h : create_response uname db sid t pid = Except.ok (db2, m)) :
    SInv db2.nextId (skel db2) := by
  cases hfind : findMsg db pid with
  | none =>
    rw [create_response] at h
    simp only [hfind] at h
    exact absurd h (by simp)
  | some parent =>
    obtain ⟨db1, rootId, hcr, hroot0, hdb5⟩ := create_response_ok_dest hfind h
    obtain ⟨hskel, hnext, hid, hpar, hroot⟩ := skel_create hcr
    subst hdb5
    rw [unarchive_nextId, update_senders_info_nextId, add_recipients_nextId,
      add_recipients_nextId, hnext, skel_unarchive, skel_update_senders_info,
      skel_add_recipients, skel_add_recipients, hskel]
    refine SInv_append_case db.nextId (skel db) _ hinv hid ?_
    refine Or.inr ⟨{ id := parent.id, parent := parent.parent, root := parent.root }, ?_, ?_, ?_⟩
    · exact List.mem_map.2 ⟨parent, List.mem_of_find?_eq_some hfind, rfl⟩
    · show m.parent = some parent.id
      rw [hpar]
      rfl
    · cases hparoot : parent.root with
      | none =>
        refine Or.inl ⟨rfl, ?_⟩
        show m.root = some parent.id
        rw [hroot]
        simp [determineRoot, responseKwargs, hparoot]
      | some pr =>
        refine Or.inr ⟨pr, rfl, ?_⟩
        show m.root = some pr
        rw [hroot]
        simp [determineRoot, responseKwargs, hparoot]

theorem SInv_of_reach {uname : Nat → String} {db : DB} (h : Reach uname db) :
    SInv db.nextId (skel db) := by
  induction h with
  | init =>
    refine ⟨fun s hs => absurd hs (by simp [skel, DB.init]),
      by simp [skel, DB.init],
      fun s hs => absurd hs (by simp [skel, DB.init]),
      fun s hs => absurd hs (by simp [skel, DB.init])⟩
  | thread h1 h2 ih => exact SInv_create_thread ih h2
  | response h1 h2 ih => exact SInv_create_response ih h2

/-- Claim C4: (a) the root stored by `create` follows the spec's rule — an
explicit root wins; else, with a parent, the parent's root when the parent
has one and the parent itself otherwise; with no parent the root stays
null.  (b) In every store reachable by the public creation operations,
every message with null root has no parent, every message with root `r`
has the stored root message `r` (null root, no parent) as the topmost
ancestor of its parent chain, and any two messages with the same non-null
root resolve to the same topmost ancestor — they belong to one thread. -/
theorem C4_root_rule_and_invariant (db db2 : DB) (k : CreateKwargs) (m : Message)
    (uname : Nat → String) (dbR : DB)
    (hc : create db k = Except.ok (db2, m)) (hr : Reach uname dbR) :
    (m.root = match k.root with
      | some r => some r
      | none =>
        match k.parent with
        | some p =>
          match p.root with
          | some pr => some pr
          | none => some p.id
        | none => none) ∧
    RootInvProp (skel dbR) ∧
    (∀ s1 ∈ skel dbR, ∀ s2 ∈ skel dbR, ∀ r, s1.root = some r → s2.root = some r →
      topA (skel dbR) (skel dbR).length s1 = topA (skel dbR) (skel dbR).length s2) := by
  obtain ⟨-, -, -, hri⟩ := SInv_of_reach hr
  refine ⟨?_, hri, ?_⟩
  · obtain ⟨t, _, _, _, _, _, _, hroot, _, _, _, _, _, _, _, _⟩ := create_ok_dest hc
    rw [hroot]
    cases hkr : k.root with
    | some r => simp [determineRoot, hkr]
    | none =>
      cases hkp : k.parent with
      | none => simp [determineRoot, hkr, hkp]
      | some p =>
        cases hpr : p.root with
        | some pr => simp [determineRoot, hkr, hkp, hpr]
        | none => simp [determineRoot, hkr, hkp, hpr]
  · intro s1 h1 s2 h2 r hr1 hr2
    rw [((hri s1 h1).2 r hr1).1, ((hri s2 h2).2 r hr2).1]

/-- Witness for C4: the concrete creation on the empty store follows the
root rule, and the two-step concrete scenario store satisfies the root
invariant. -/
theorem C4_witness :
    (wMsg100.root = match wKw100.root with
      | some r => some r
      | none =>
        match wKw100.parent with
        | some p =>
          match p.root with
          | some pr => some pr
          | none => some p.id
        | none => none) ∧
      RootInvProp (skel wSt2) := by
  have hth : create_thread unameW DB.init 1 [GroupId.named nameG] wText
      = Except.ok (wSt1, wMsg1) := rfl
  have hresp : create_response unameW wSt1 2 wReplyText 0
      = Except.ok (wSt2, wMsg2) := rfl
  have h := C4_root_rule_and_invariant DB.init wDb100 wKw100 wMsg100 unameW wSt2 rfl
    (Reach.response (Reach.thread Reach.init hth) hresp)
  exact ⟨h.1, h.2.1⟩

end GroupMessaging






